import Mathlib

/-!
# Verification of the eligibility-propagation LIF model (`models.py`)

A shallow embedding of the repository's single source file `models.py`:
the LIF recurrent cell (`LightLIF`), the surrogate spike function
(`SpikeFunction` with its custom gradient built on `pseudo_derivative`),
the exponential trace filter (`exp_convolve`), the one-step time shift
(`shift_by_one_time_step`), and the gradient checker (`check_gradients`).

Real-valued tensor arithmetic is modelled over an arbitrary linear ordered
field `α` (instantiated at `ℚ` for executable witnesses and at `ℝ` where the
spec mentions `exp`).  A rank-2 tensor of shape `(batch, feature)` is a
`Matrix (Fin B) (Fin N) α`; a rank-3 sequence tensor of shape
`(trial, time, neuron)` is represented time-major as a `List` of its time
slices (the source transposes to time-major before acting along time and
transposes back, so the time-major list carries exactly the content the
time-axis operations act on).  The gradient checker works on `numpy`
arrays, modelled as `List (List ℚ)`, and its `raise ValueError()` is
modelled as a `Bool` flag (`true` = the exception was raised); the values
it prints per parameter are collected in a `GradReport`.
-/

namespace EligProp

/-! ## Gradient checker (`check_gradients`, models.py lines 190-226) -/

/-- One entry of the elementwise comparison `np.abs(diff) < 1e-4`
(models.py line 205). -/
def gradEntryCorrect (e t : ℚ) : Bool :=
  decide (|e - t| < 1 / 10000)

/-- `np.all(is_correct)` over the whole array (models.py lines 205-207):
every entry of the two index-aligned arrays agrees within the tolerance. -/
def gradAllCorrect (e t : List (List ℚ)) : Bool :=
  (List.range (min e.length t.length)).all fun i =>
    (List.range (min (e.getD i []).length (t.getD i []).length)).all fun j =>
      gradEntryCorrect ((e.getD i []).getD j 0) ((t.getD i []).getD j 0)

/-- `np.where(1 - is_correct)` zipped into row-major index pairs
(models.py lines 221-222). -/
def mismatchIndices (e t : List (List ℚ)) : List (ℕ × ℕ) :=
  (List.range (min e.length t.length)).flatMap fun i =>
    (List.range (min (e.getD i []).length (t.getD i []).length)).filterMap fun j =>
      if gradEntryCorrect ((e.getD i []).getD j 0) ((t.getD i []).getD j 0) then none
      else some (i, j)

/-- What `check_gradients` prints for one variable: its name, whether it was
declared correct, and (when wrong) the mismatch index pairs it reports. -/
structure GradReport where
  name : String
  is_correct : Bool
  mismatch_indices : List (ℕ × ℕ)
  deriving Repr, DecidableEq

/-- `check_gradients(var_list, eprop_grads_np, true_grads_np)`
(models.py lines 190-226).  The input is the index-aligned triple list
`(v.name, eprop_grad, true_grad)`.  The returned list collects the
per-parameter reports actually produced before the function returns or
raises; the `Bool` is `true` iff `raise ValueError()` (line 226) was
reached.  Note the source raises inside the loop body of the first
parameter found wrong, so no later parameter is examined. -/
def check_gradients : List (String × List (List ℚ) × List (List ℚ)) → List GradReport × Bool
  | [] => ([], false)
  | (n, e, t) :: rest =>
    if gradAllCorrect e t then
      let r := check_gradients rest
      (⟨n, true, []⟩ :: r.1, r.2)
    else
      ([⟨n, false, mismatchIndices e t⟩], true)

/-! ## Spike function and pseudo-derivative (models.py lines 36-66) -/

variable {α : Type} [LinearOrderedField α]

/-- `pseudo_derivative(v_scaled, dampening_factor)` (models.py lines 36-43):
`tf.maximum(1 - tf.abs(v_scaled), 0) * dampening_factor`, elementwise on one
scalar entry. -/
def pseudo_derivative (v_scaled dampening_factor : α) : α :=
  max (1 - |v_scaled|) 0 * dampening_factor

/-- The forward value of `SpikeFunction` on one scalar entry (models.py
lines 55-56): `tf.cast(tf.greater(v_scaled, 0.), tf.float32)`. -/
def SpikeFunction (v_scaled dampening_factor : α) : α :=
  if 0 < v_scaled then 1 else 0

variable {B N n_in n_rec : ℕ}

/-- The backward rule of `SpikeFunction` (models.py lines 58-64) on a
`(batch, feature)` tensor: given the incoming gradient `dy` it returns
`[dy * pseudo_derivative(v_scaled, dampening_factor),
tf.zeros_like(dampening_factor)]` — the gradient with respect to
`v_scaled` and the (zero) gradient with respect to the scalar dampening
factor. -/
def SpikeFunction_grad (v_scaled : Matrix (Fin B) (Fin N) α) (dampening_factor : α)
    (dy : Matrix (Fin B) (Fin N) α) : Matrix (Fin B) (Fin N) α × α :=
  (Matrix.of fun b j => dy b j * pseudo_derivative (v_scaled b j) dampening_factor, 0)

/-! ## The LIF cell (`LightLIF`, models.py lines 69-146) -/

/-- `LightLIFStateTuple` (models.py line 6): the `(v, z)` state of the cell,
each of shape `(batch, n_rec)`. -/
@[ext]
structure LightLIFStateTuple (B n_rec : ℕ) (α : Type) where
  v : Matrix (Fin B) (Fin n_rec) α
  z : Matrix (Fin B) (Fin n_rec) α
  deriving DecidableEq

/-- The `LightLIF` cell (models.py lines 69-109).  `decay` is the field
`self._decay`, computed once at construction as `tf.exp(-dt / tau)`
(line 98) — the instantiation at `ℝ` states this relation explicitly where
a claim needs it.  `w_in_var` and `w_rec_var` are the underlying
`tf.Variable` contents, which an external optimizer may overwrite between
passes; the values the cell reads are `w_in_val` and `w_rec_val` below. -/
structure LightLIF (n_in n_rec : ℕ) (α : Type) where
  tau : α
  thr : α
  dt : α
  dampening_factor : α
  decay : α
  w_in_var : Matrix (Fin n_in) (Fin n_rec) α
  w_rec_var : Matrix (Fin n_rec) (Fin n_rec) α
  stop_z_gradients : Bool

/-- `self.recurrent_disconnect_mask = np.diag(np.ones(n_rec, dtype=bool))`
(models.py line 107): `true` exactly on the diagonal. -/
def recurrent_disconnect_mask (i j : Fin n_rec) : Bool :=
  decide (i = j)

/-- `self.w_in_val = tf.identity(self.w_in_var)` (models.py line 103). -/
def LightLIF.w_in_val (c : LightLIF n_in n_rec α) : Matrix (Fin n_in) (Fin n_rec) α :=
  c.w_in_var

/-- `self.w_rec_val = tf.where(self.recurrent_disconnect_mask,
tf.zeros_like(self.w_rec_var), self.w_rec_var)` (models.py lines 108-109):
the recurrent weights as read at every use, with the autapse diagonal
forced to zero.  In the TF graph this `tf.where` node is re-evaluated from
the current `w_rec_var` contents on every session run, which the embedding
captures by making it a function of the stored matrix. -/
def LightLIF.w_rec_val (c : LightLIF n_in n_rec α) : Matrix (Fin n_rec) (Fin n_rec) α :=
  Matrix.of fun i j => if recurrent_disconnect_mask i j then 0 else c.w_rec_var i j

/-- `LightLIF.zero_state(batch_size, dtype)` (models.py lines 119-125):
the all-zero `(v, z)` state. -/
def LightLIF.zero_state (_c : LightLIF n_in n_rec α) (B : ℕ) :
    LightLIFStateTuple B n_rec α :=
  ⟨0, 0⟩

/-- `LightLIF.__call__(inputs, state)` (models.py lines 127-146), one
discrete time step:

    i_t     = inputs @ w_in_val + z @ w_rec_val
    I_reset = z * thr * dt
    new_v   = decay * v + (1 - decay) * i_t - I_reset
    v_scaled = (new_v - thr) / thr
    new_z   = SpikeFunction(v_scaled, dampening_factor) * 1 / dt

returning `([new_z, new_v], LightLIFStateTuple(v=new_v, z=new_z))`.
`stop_z_gradients` (line 133) only detaches `z` in the backward graph; the
forward value used is unchanged, so the forward embedding reads `state.z`
either way. -/
def LightLIF.call (c : LightLIF n_in n_rec α) (inputs : Matrix (Fin B) (Fin n_in) α)
    (state : LightLIFStateTuple B n_rec α) :
    (Matrix (Fin B) (Fin n_rec) α × Matrix (Fin B) (Fin n_rec) α) ×
      LightLIFStateTuple B n_rec α :=
  let z := state.z
  let v := state.v
  let i_t := inputs * c.w_in_val + z * c.w_rec_val
  let I_reset := Matrix.of fun b j => z b j * c.thr * c.dt
  let new_v := Matrix.of fun b j => c.decay * v b j + (1 - c.decay) * i_t b j - I_reset b j
  let v_scaled := Matrix.of fun b j => (new_v b j - c.thr) / c.thr
  let new_z := Matrix.of fun b j => SpikeFunction (v_scaled b j) c.dampening_factor * 1 / c.dt
  ((new_z, new_v), ⟨new_v, new_z⟩)

/-- Unrolling the cell over an input sequence (time-major list of per-step
input matrices), the way the driver invokes the cell once per time step:
returns the list of per-step `[new_z, new_v]` outputs and the final state. -/
def LightLIF.run (c : LightLIF n_in n_rec α) :
    List (Matrix (Fin B) (Fin n_in) α) → LightLIFStateTuple B n_rec α →
      List (Matrix (Fin B) (Fin n_rec) α × Matrix (Fin B) (Fin n_rec) α) ×
        LightLIFStateTuple B n_rec α
  | [], s => ([], s)
  | x :: xs, s =>
    let step := c.call x s
    let rest := c.run xs step.2
    (step.1 :: rest.1, rest.2)

/-- The spike nonlinearity as the spec states it: the Heaviside step with
value `0` at the origin. -/
def Heaviside (x : α) : α :=
  if 0 < x then 1 else 0

/-- The step function as the spec's §4.3 algorithm states it, written from
the spec's words for comparison against `LightLIF.call`: the decay to use
is passed explicitly (the spec derives it once at construction as
`decay = exp(-dt/tau)`), and the spike is `Heaviside((v_next - thr)/thr) / dt`. -/
def LIFStepSpec (c : LightLIF n_in n_rec α) (decay : α)
    (input_t : Matrix (Fin B) (Fin n_in) α) (state : LightLIFStateTuple B n_rec α) :
    (Matrix (Fin B) (Fin n_rec) α × Matrix (Fin B) (Fin n_rec) α) ×
      LightLIFStateTuple B n_rec α :=
  let i_t := input_t * c.w_in_val + state.z * c.w_rec_val
  let i_reset := Matrix.of fun b j => state.z b j * c.thr * c.dt
  let v_next := Matrix.of fun b j =>
    decay * state.v b j + (1 - decay) * i_t b j - i_reset b j
  let z_next := Matrix.of fun b j => Heaviside ((v_next b j - c.thr) / c.thr) / c.dt
  ((z_next, v_next), ⟨v_next, z_next⟩)

/-- A concrete rational 2-neuron layer used by witnesses; its stored
recurrent matrix is constantly `5`, in particular non-zero on the
diagonal. -/
def sampleCellQ : LightLIF 1 2 ℚ :=
  ⟨20, 123 / 200, 1, 3 / 10, 1 / 2, 0, Matrix.of fun _ _ => 5, false⟩

/-! ## Sequence utilities (models.py lines 149-187)

Both utilities transpose the `(trial, time, neuron)` tensor to time-major,
act along time, and transpose back (models.py lines 158-164, 177-186); the
embedding works on the time-major `List` of time slices directly, a slice
being any `α`-module (instantiated at `(trial, neuron)` matrices or plain
scalars in the theorems). -/

/-- `tf.scan f elems initializer` on a time-major list: output `t` is the
accumulator after folding `f` over slices `0..t` starting from
`initializer`; the initializer itself is not part of the output. -/
def tfScan {M : Type} (f : M → M → M) : M → List M → List M
  | _, [] => []
  | a, x :: xs =>
    let a2 := f a x
    a2 :: tfScan f a2 xs

/-- `exp_convolve(tensor, decay)` (models.py lines 149-165):
`tf.scan(lambda a, x: a * decay + (1 - decay) * x, tensor_time_major,
initializer=tf.zeros_like(tensor_time_major[0]))`. -/
def exp_convolve {M : Type} [AddCommMonoid M] [Module α M]
    (tensor : List M) (decay : α) : List M :=
  tfScan (fun a x => decay • a + (1 - decay) • x) 0 tensor

/-- `shift_by_one_time_step(tensor, initializer)` (models.py lines 168-187):
`tf.concat([initializer[None, :, :], tensor_time_major[:-1]], axis=0)`, the
initializer defaulting to `tf.zeros_like(tensor_time_major[0])`. -/
def shift_by_one_time_step {M : Type} [AddCommMonoid M]
    (tensor : List M) (initializer : Option M) : List M :=
  initializer.getD 0 :: tensor.dropLast

/-- Replace entry `(i, j)` of a rank-2 gradient array, leaving every other
entry unchanged: used to state "two gradient lists identical except for
exactly one entry". -/
def updateEntry (m : List (List ℚ)) (i j : ℕ) (x : ℚ) : List (List ℚ) :=
  m.set i ((m.getD i []).set j x)

/-- A concrete checker input with two parameters whose first gradient pair
disagrees (difference `1`) and whose second pair agrees exactly. -/
def badGradInput : List (String × List (List ℚ) × List (List ℚ)) :=
  [("InputWeights", [[1]], [[0]]), ("RecWeights", [[0]], [[0]])]

/-! ## Theorems -/

section ScanLemmas

variable {M : Type}

lemma tfScan_length (f : M → M → M) (a : M) (xs : List M) :
    (tfScan f a xs).length = xs.length := by
  induction xs generalizing a with
  | nil => rfl
  | cons x xs ih => simpa [tfScan] using ih (f a x)

lemma tfScan_getD_succ (f : M → M → M) (a d : M) (xs : List M) (t : ℕ)
    (h : t + 1 < xs.length) :
    (tfScan f a xs).getD (t + 1) d = f ((tfScan f a xs).getD t d) (xs.getD (t + 1) d) := by
  induction xs generalizing a t with
  | nil => simp at h
  | cons x xs ih =>
    cases t with
    | zero =>
      cases xs with
      | nil => simp at h
      | cons y ys => simp [tfScan]
    | succ s =>
      have h2 : s + 1 < xs.length := by simpa using h
      simpa [tfScan, List.getD_cons_succ] using ih (f a x) s h2

end ScanLemmas

section CheckerLemmas

/-- A single failing entry inside the compared region makes the whole
`np.all` comparison false. -/
lemma gradAllCorrect_false (e t : List (List ℚ)) (i j : ℕ)
    (hi : i < min e.length t.length)
    (hj : j < min (e.getD i []).length (t.getD i []).length)
    (hfail : gradEntryCorrect ((e.getD i []).getD j 0) ((t.getD i []).getD j 0) = false) :
    gradAllCorrect e t = false := by
  cases hall : gradAllCorrect e t with
  | false => rfl
  | true =>
    exfalso
    rw [gradAllCorrect, List.all_eq_true] at hall
    have h1 := hall i (List.mem_range.mpr hi)
    rw [List.all_eq_true] at h1
    have h2 := h1 j (List.mem_range.mpr hj)
    rw [hfail] at h2
    exact Bool.false_ne_true h2

/-- Comparing an array against itself passes every entry. -/
lemma gradAllCorrect_refl (e : List (List ℚ)) : gradAllCorrect e e = true := by
  rw [gradAllCorrect, List.all_eq_true]
  intro i _
  rw [List.all_eq_true]
  intro j _
  rw [gradEntryCorrect]
  norm_num

/-- A failing entry inside the compared region appears among the reported
row-major mismatch index pairs. -/
lemma mem_mismatchIndices (e t : List (List ℚ)) (i j : ℕ)
    (hi : i < min e.length t.length)
    (hj : j < min (e.getD i []).length (t.getD i []).length)
    (hfail : gradEntryCorrect ((e.getD i []).getD j 0) ((t.getD i []).getD j 0) = false) :
    (i, j) ∈ mismatchIndices e t := by
  rw [mismatchIndices, List.mem_flatMap]
  refine ⟨i, List.mem_range.mpr hi, ?_⟩
  rw [List.mem_filterMap]
  exact ⟨j, List.mem_range.mpr hj, by rw [hfail]; rfl⟩

/-- `check_gradients` in closed form: the reports are the passing reports
of the longest all-correct prefix, followed by the failing report of the
first wrong parameter when one exists; the `ValueError` flag is set iff
some parameter is wrong. -/
lemma check_gradients_eq (ps : List (String × List (List ℚ) × List (List ℚ))) :
    check_gradients ps =
      ((ps.takeWhile fun p => gradAllCorrect p.2.1 p.2.2).map (fun p =>
          (⟨p.1, true, []⟩ : GradReport)) ++
        ((ps.find? fun p => !gradAllCorrect p.2.1 p.2.2).map fun p =>
          (⟨p.1, false, mismatchIndices p.2.1 p.2.2⟩ : GradReport)).toList,
       ps.any fun p => !gradAllCorrect p.2.1 p.2.2) := by
  induction ps with
  | nil => rfl
  | cons p rest ih =>
    obtain ⟨n, e, t⟩ := p
    cases h : gradAllCorrect e t with
    | true =>
      rw [check_gradients, if_pos h, ih]
      simp [List.takeWhile_cons, h, List.find?_cons_of_neg, List.any_cons]
    | false =>
      rw [check_gradients, if_neg (by rw [h]; exact Bool.false_ne_true)]
      simp [List.takeWhile_cons, h, List.find?_cons_of_pos, List.any_cons]

/-- On a list of parameters whose two gradients are identical,
`check_gradients` reports every parameter as passing and does not raise. -/
lemma check_gradients_identical (qs : List (String × List (List ℚ) × List (List ℚ)))
    (hq : ∀ p ∈ qs, p.2.1 = p.2.2) :
    check_gradients qs = (qs.map fun p => (⟨p.1, true, []⟩ : GradReport), false) := by
  induction qs with
  | nil => rfl
  | cons p rest ih =>
    obtain ⟨n, e, t⟩ := p
    have h1 : e = t := hq (n, e, t) (List.mem_cons_self _ _)
    have h2 : gradAllCorrect e t = true := by
      rw [h1]
      exact gradAllCorrect_refl t
    rw [check_gradients, if_pos h2, ih fun q hh => hq q (List.mem_cons_of_mem _ hh)]
    rfl

/-- Walking `check_gradients` over an all-correct prefix down to the first
failing parameter: the prefix is reported passing, the failing parameter is
reported with its mismatch indices, `ValueError` is raised, and the
parameters after it are never examined. -/
lemma check_gradients_stops_at_first_fail (pre post : List (String × List (List ℚ) × List (List ℚ)))
    (q : String × List (List ℚ) × List (List ℚ))
    (hpre : ∀ p ∈ pre, p.2.1 = p.2.2) (hq : gradAllCorrect q.2.1 q.2.2 = false) :
    check_gradients (pre ++ q :: post) =
      ((pre.map fun p => (⟨p.1, true, []⟩ : GradReport)) ++
        [⟨q.1, false, mismatchIndices q.2.1 q.2.2⟩], true) := by
  induction pre with
  | nil =>
    obtain ⟨n, e, t⟩ := q
    rw [List.nil_append, check_gradients, if_neg (by rw [hq]; exact Bool.false_ne_true)]
    rfl
  | cons p rest ih =>
    obtain ⟨n, e, t⟩ := p
    have h1 : e = t := hpre (n, e, t) (List.mem_cons_self _ _)
    have h2 : gradAllCorrect e t = true := by
      rw [h1]
      exact gradAllCorrect_refl t
    rw [List.cons_append, check_gradients, if_pos h2,
      ih fun r hh => hpre r (List.mem_cons_of_mem _ hh)]
    rfl

end CheckerLemmas

/-- C4: for every real-valued input tensor, the forward value of
`SpikeFunction` is elementwise exactly `1` where `v_scaled > 0` and exactly
`0` otherwise; in particular at `v_scaled = 0` the output is `0` (a spike
requires strictly positive scaled voltage), and the output is always binary
regardless of the dampening factor. -/
theorem SpikeFunction_forward_heaviside (v : Matrix (Fin B) (Fin N) α) (d e : α)
    (b : Fin B) (j : Fin N) :
    (0 < v b j → SpikeFunction (v b j) d = 1) ∧
    (v b j ≤ 0 → SpikeFunction (v b j) d = 0) ∧
    SpikeFunction (0 : α) d = 0 ∧
    (SpikeFunction (v b j) d = 0 ∨ SpikeFunction (v b j) d = 1) ∧
    SpikeFunction (v b j) d = SpikeFunction (v b j) e := by
  unfold SpikeFunction
  refine ⟨fun h => if_pos h, fun h => if_neg (not_lt.mpr h), if_neg (lt_irrefl 0), ?_, rfl⟩
  by_cases h : 0 < v b j
  · exact Or.inr (if_pos h)
  · exact Or.inl (if_neg h)

/-- Witness for C4 at a concrete strictly positive entry over `ℚ`. -/
theorem SpikeFunction_forward_heaviside_witness :
    ((0 : ℚ) < 1 → SpikeFunction (1 : ℚ) (3 / 10) = 1) ∧
    ((1 : ℚ) ≤ 0 → SpikeFunction (1 : ℚ) (3 / 10) = 0) ∧
    SpikeFunction (0 : ℚ) (3 / 10) = 0 ∧
    (SpikeFunction (1 : ℚ) (3 / 10) = 0 ∨ SpikeFunction (1 : ℚ) (3 / 10) = 1) ∧
    SpikeFunction (1 : ℚ) (3 / 10) = SpikeFunction (1 : ℚ) (7 / 10) :=
  SpikeFunction_forward_heaviside (B := 1) (N := 1) (Matrix.of fun _ _ => 1) (3 / 10) (7 / 10) 0 0

/-- C5: the backward rule of `SpikeFunction` returns the incoming gradient
`dy` multiplied elementwise by
`pseudo_derivative(v_scaled, d) = max(1 - |v_scaled|, 0) * d` as the
gradient with respect to `v_scaled`, and exactly zero gradient with respect
to the dampening factor. -/
theorem SpikeFunction_grad_pseudo_derivative (v dy : Matrix (Fin B) (Fin N) α) (d : α) :
    SpikeFunction_grad v d dy =
      (Matrix.of fun b j => dy b j * (max (1 - |v b j|) 0 * d), 0) ∧
    (SpikeFunction_grad v d dy).2 = 0 :=
  ⟨rfl, rfl⟩

/-- C8: the recurrent weight matrix the cell reads (`w_rec_val`) has an
identically zero diagonal for every layer instance and every stored
`w_rec_var` contents — including non-zero diagonal entries written
externally between passes, since `w_rec_val` is recomputed from the current
contents at every access — while off-diagonal entries pass through
unchanged. -/
theorem w_rec_val_diag_zero (c : LightLIF n_in n_rec α) (i j : Fin n_rec) (h : i ≠ j) :
    c.w_rec_val i i = 0 ∧ c.w_rec_val i j = c.w_rec_var i j := by
  constructor
  · simp [LightLIF.w_rec_val, recurrent_disconnect_mask]
  · simp [LightLIF.w_rec_val, recurrent_disconnect_mask, h]

/-- Witness for C8: a concrete 2-neuron layer whose stored recurrent matrix
is constantly `5` (in particular non-zero on the diagonal) still reads a
zero diagonal. -/
theorem w_rec_val_diag_zero_witness :
    sampleCellQ.w_rec_val 0 0 = 0 ∧ sampleCellQ.w_rec_val 0 1 = sampleCellQ.w_rec_var 0 1 :=
  w_rec_val_diag_zero sampleCellQ 0 1 (by decide)

/-- C10: the per-entry comparison of the gradient checker is the strict
inequality `|eprop - true| < 1e-4`; an entry whose absolute difference is
exactly `1e-4` is classified as a mismatch and makes its parameter fail. -/
theorem gradEntryCorrect_strict (x y : ℚ) (e t : List (List ℚ)) (i j : ℕ)
    (hi : i < min e.length t.length)
    (hj : j < min (e.getD i []).length (t.getD i []).length)
    (hexact : |(e.getD i []).getD j 0 - (t.getD i []).getD j 0| = 1 / 10000) :
    (gradEntryCorrect x y = true ↔ |x - y| < 1 / 10000) ∧
    gradEntryCorrect ((e.getD i []).getD j 0) ((t.getD i []).getD j 0) = false ∧
    gradAllCorrect e t = false := by
  have hfail : gradEntryCorrect ((e.getD i []).getD j 0) ((t.getD i []).getD j 0) = false := by
    unfold gradEntryCorrect
    rw [hexact]
    norm_num
  refine ⟨by simp [gradEntryCorrect], hfail, ?_⟩
  cases hall : gradAllCorrect e t with
  | false => rfl
  | true =>
    exfalso
    rw [gradAllCorrect, List.all_eq_true] at hall
    have h1 := hall i (List.mem_range.mpr hi)
    rw [List.all_eq_true] at h1
    have h2 := h1 j (List.mem_range.mpr hj)
    rw [hfail] at h2
    exact Bool.false_ne_true h2

/-- Witness for C10: a single-entry gradient pair differing by exactly
`1e-4` fails the check. -/
theorem gradEntryCorrect_strict_witness :
    (gradEntryCorrect 0 0 = true ↔ |(0 : ℚ) - 0| < 1 / 10000) ∧
    gradEntryCorrect (([[(1 : ℚ) / 10000]].getD 0 []).getD 0 0)
      (([[(0 : ℚ)]].getD 0 []).getD 0 0) = false ∧
    gradAllCorrect [[(1 : ℚ) / 10000]] [[(0 : ℚ)]] = false :=
  gradEntryCorrect_strict 0 0 [[(1 : ℚ) / 10000]] [[(0 : ℚ)]] 0 0
    (by decide) (by decide) (by norm_num)

/-- C6: for every sequence tensor and every decay in `[0,1)`,
`exp_convolve` produces an output of exactly the input's length of time
slices satisfying `filtered[0] = (1 - decay) * raw[0]` (zero initial
accumulator) and `filtered[t] = decay * filtered[t-1] + (1 - decay) * raw[t]`
for every `t > 0`; on a length-1 sequence of value `c` the output is
`[(1 - decay) * c]`. -/
theorem exp_convolve_recurrence {M : Type} [AddCommMonoid M] [Module α M]
    (tensor : List M) (decay : α) (t : ℕ) (c : M)
    (h0 : 0 ≤ decay) (h1 : decay < 1) (hhd : 0 < tensor.length)
    (ht : t + 1 < tensor.length) :
    (exp_convolve tensor decay).length = tensor.length ∧
    (exp_convolve tensor decay).getD 0 0 = (1 - decay) • tensor.getD 0 0 ∧
    (exp_convolve tensor decay).getD (t + 1) 0 =
      decay • (exp_convolve tensor decay).getD t 0 +
        (1 - decay) • tensor.getD (t + 1) 0 ∧
    exp_convolve [c] decay = [(1 - decay) • c] := by
  refine ⟨tfScan_length _ _ _, ?_, ?_, ?_⟩
  · cases tensor with
    | nil => simp at hhd
    | cons x xs => simp [exp_convolve, tfScan]
  · exact tfScan_getD_succ _ _ _ _ _ ht
  · simp [exp_convolve, tfScan]

/-- Witness for C6 on the two-slice scalar sequence `[3, 5]` with decay
`1/2`: the first output is `3/2` and the second obeys the recurrence. -/
theorem exp_convolve_recurrence_witness :
    (exp_convolve [(3 : ℚ), 5] ((1 : ℚ) / 2)).length = [(3 : ℚ), 5].length ∧
    (exp_convolve [(3 : ℚ), 5] ((1 : ℚ) / 2)).getD 0 0 =
      (1 - (1 : ℚ) / 2) • [(3 : ℚ), 5].getD 0 0 ∧
    (exp_convolve [(3 : ℚ), 5] ((1 : ℚ) / 2)).getD (0 + 1) 0 =
      ((1 : ℚ) / 2) • (exp_convolve [(3 : ℚ), 5] ((1 : ℚ) / 2)).getD 0 0 +
        (1 - (1 : ℚ) / 2) • [(3 : ℚ), 5].getD (0 + 1) 0 ∧
    exp_convolve [(7 : ℚ)] ((1 : ℚ) / 2) = [(1 - (1 : ℚ) / 2) • (7 : ℚ)] :=
  exp_convolve_recurrence [(3 : ℚ), 5] ((1 : ℚ) / 2) 0 7
    (by norm_num) (by norm_num) (by decide) (by decide)

/-- C7: for every sequence tensor of time length `T ≥ 1` and every optional
initializer (defaulting to the all-zero slice), `shift_by_one_time_step`
produces an output of the input's length with `shifted[0] = initializer`
and `shifted[t] = raw[t-1]` for `1 ≤ t < T`; the output is the initializer
followed by the first `T - 1` input slices, so the final input slice is
dropped. -/
theorem shift_by_one_time_step_spec {M : Type} [AddCommMonoid M]
    (tensor : List M) (initializer : Option M) (t : ℕ)
    (h : 0 < tensor.length) (ht0 : 0 < t) (ht : t < tensor.length) :
    (shift_by_one_time_step tensor initializer).length = tensor.length ∧
    (shift_by_one_time_step tensor initializer).getD 0 0 = initializer.getD 0 ∧
    (shift_by_one_time_step tensor initializer).getD t 0 = tensor.getD (t - 1) 0 ∧
    shift_by_one_time_step tensor initializer =
      initializer.getD 0 :: tensor.take (tensor.length - 1) ∧
    (shift_by_one_time_step tensor none).getD 0 0 = (0 : M) := by
  refine ⟨?_, rfl, ?_, ?_, rfl⟩
  · simp only [shift_by_one_time_step, List.length_cons, List.length_dropLast]
    omega
  · obtain ⟨s, rfl⟩ : ∃ s, t = s + 1 := ⟨t - 1, (Nat.succ_pred_eq_of_pos ht0).symm⟩
    have hs : s < tensor.dropLast.length := by
      rw [List.length_dropLast]
      omega
    have hs' : s < tensor.length := lt_of_lt_of_le hs (by simp [List.length_dropLast])
    simp only [shift_by_one_time_step, List.getD_cons_succ, Nat.add_sub_cancel]
    rw [List.getD_eq_getElem _ _ hs, List.getD_eq_getElem _ _ hs']
    exact List.getElem_dropLast tensor s hs
  · rw [shift_by_one_time_step, List.dropLast_eq_take]

/-- Witness for C7 on the scalar sequence `[2, 3]` with initializer `7` at
time index `1`. -/
theorem shift_by_one_time_step_spec_witness :
    (shift_by_one_time_step [(2 : ℚ), 3] (some 7)).length = [(2 : ℚ), 3].length ∧
    (shift_by_one_time_step [(2 : ℚ), 3] (some 7)).getD 0 0 = (some (7 : ℚ)).getD 0 ∧
    (shift_by_one_time_step [(2 : ℚ), 3] (some 7)).getD 1 0 = [(2 : ℚ), 3].getD (1 - 1) 0 ∧
    shift_by_one_time_step [(2 : ℚ), 3] (some 7) =
      (some (7 : ℚ)).getD 0 :: [(2 : ℚ), 3].take ([(2 : ℚ), 3].length - 1) ∧
    (shift_by_one_time_step [(2 : ℚ), 3] none).getD 0 0 = (0 : ℚ) :=
  shift_by_one_time_step_spec [(2 : ℚ), 3] (some 7) 1 (by decide) (by decide) (by decide)

/-- `LightLIF.call` with its intermediate `let`s inlined entrywise. -/
lemma call_def (c : LightLIF n_in n_rec α) (inputs : Matrix (Fin B) (Fin n_in) α)
    (state : LightLIFStateTuple B n_rec α) :
    c.call inputs state =
      ((Matrix.of fun b j =>
          SpikeFunction
            ((c.decay * state.v b j +
                (1 - c.decay) * (inputs * c.w_in_val + state.z * c.w_rec_val) b j -
                state.z b j * c.thr * c.dt - c.thr) / c.thr) c.dampening_factor * 1 / c.dt,
        Matrix.of fun b j =>
          c.decay * state.v b j +
            (1 - c.decay) * (inputs * c.w_in_val + state.z * c.w_rec_val) b j -
            state.z b j * c.thr * c.dt),
       ⟨Matrix.of fun b j =>
          c.decay * state.v b j +
            (1 - c.decay) * (inputs * c.w_in_val + state.z * c.w_rec_val) b j -
            state.z b j * c.thr * c.dt,
        Matrix.of fun b j =>
          SpikeFunction
            ((c.decay * state.v b j +
                (1 - c.decay) * (inputs * c.w_in_val + state.z * c.w_rec_val) b j -
                state.z b j * c.thr * c.dt - c.thr) / c.thr) c.dampening_factor * 1 / c.dt⟩) :=
  rfl

/-- On zero input in the zero state the cell reproduces the zero state and
emits zero (needs `thr ≠ 0`, which makes `v_scaled = -1` at rest). -/
lemma call_zero (c : LightLIF n_in n_rec α) (hthr : c.thr ≠ 0) :
    c.call (0 : Matrix (Fin B) (Fin n_in) α) (⟨0, 0⟩ : LightLIFStateTuple B n_rec α) =
      ((0, 0), ⟨0, 0⟩) := by
  have hscaled : -c.thr / c.thr = -1 := by
    rw [neg_div, div_self hthr]
  have hspike : SpikeFunction (-c.thr / c.thr) c.dampening_factor = 0 := by
    rw [hscaled, SpikeFunction, if_neg (not_lt.mpr (neg_nonpos.mpr zero_le_one))]
  rw [call_def]
  refine Prod.ext (Prod.ext ?_ ?_) (LightLIFStateTuple.ext ?_ ?_) <;>
    · ext b j
      simp [hspike]

/-- Unrolling on an all-zero input sequence from the zero state keeps the
outputs and the state at zero. -/
lemma run_zero (c : LightLIF n_in n_rec α) (hthr : c.thr ≠ 0) (T : ℕ) :
    c.run (List.replicate T (0 : Matrix (Fin B) (Fin n_in) α))
        (⟨0, 0⟩ : LightLIFStateTuple B n_rec α) =
      (List.replicate T (0, 0), ⟨0, 0⟩) := by
  induction T with
  | zero => rfl
  | succ n ih => simp [List.replicate_succ, LightLIF.run, call_zero c hthr, ih]

/-- C2: for every valid configuration (positive `tau`, `dt` and `thr`),
every batch size and every number of steps, the all-zero resting state is a
fixed point of the step under zero input, and iterating from the cell's
`zero_state` on an all-zero input sequence yields voltage and spike exactly
zero at every step. -/
theorem lif_zero_fixed_point (c : LightLIF n_in n_rec α) (B T : ℕ)
    (htau : 0 < c.tau) (hdt : 0 < c.dt) (hthr : 0 < c.thr) :
    c.call (0 : Matrix (Fin B) (Fin n_in) α) (c.zero_state B) = ((0, 0), c.zero_state B) ∧
    c.run (List.replicate T (0 : Matrix (Fin B) (Fin n_in) α)) (c.zero_state B) =
      (List.replicate T (0, 0), c.zero_state B) :=
  ⟨call_zero c hthr.ne', run_zero c hthr.ne' T⟩

/-- Witness for C2: the sample rational layer over one batch element and
two steps. -/
theorem lif_zero_fixed_point_witness :
    sampleCellQ.call (0 : Matrix (Fin 1) (Fin 1) ℚ) (sampleCellQ.zero_state 1) =
      ((0, 0), sampleCellQ.zero_state 1) ∧
    sampleCellQ.run (List.replicate 2 (0 : Matrix (Fin 1) (Fin 1) ℚ))
        (sampleCellQ.zero_state 1) =
      (List.replicate 2 (0, 0), sampleCellQ.zero_state 1) :=
  lif_zero_fixed_point sampleCellQ 1 2 (by norm_num [sampleCellQ])
    (by norm_num [sampleCellQ]) (by norm_num [sampleCellQ])

/-- `LightLIF.call` agrees with the spec-side step once the spec's step is
given the cell's stored decay: the only syntactic differences are
`SpikeFunction = Heaviside` on the forward value and `z * 1 / dt = z / dt`. -/
lemma call_eq_stepSpec (c : LightLIF n_in n_rec α) (inputs : Matrix (Fin B) (Fin n_in) α)
    (state : LightLIFStateTuple B n_rec α) :
    c.call inputs state = LIFStepSpec c c.decay inputs state := by
  simp only [LightLIF.call, LIFStepSpec, SpikeFunction, Heaviside, mul_one, Matrix.of_apply]

/-- C3: for every input matrix and state, `LightLIF.__call__` returns
exactly `([z_next, v_next], LightLIFStateTuple(v_next, z_next))` where
`i_t = inputs·w_in + z·w_rec`, `i_reset = z * thr * dt`,
`v_next = decay * v + (1 - decay) * i_t - i_reset` with
`decay = exp(-dt/tau)` as stored at construction, and
`z_next = Heaviside((v_next - thr)/thr) / dt`. -/
theorem lif_call_matches_spec (c : LightLIF n_in n_rec ℝ)
    (inputs : Matrix (Fin B) (Fin n_in) ℝ) (state : LightLIFStateTuple B n_rec ℝ)
    (hdecay : c.decay = Real.exp (-(c.dt / c.tau))) :
    c.call inputs state = LIFStepSpec c (Real.exp (-(c.dt / c.tau))) inputs state := by
  rw [← hdecay]
  exact call_eq_stepSpec c inputs state

/-- Witness for C3: a concrete real-valued cell whose stored decay is
`exp(-dt/tau) = exp(-1/20)`. -/
theorem lif_call_matches_spec_witness :
    LightLIF.call
        (⟨20, 123 / 200, 1, 3 / 10, Real.exp (-((1 : ℝ) / 20)), 0, 0, false⟩ :
          LightLIF 1 1 ℝ)
        (0 : Matrix (Fin 1) (Fin 1) ℝ) ⟨0, 0⟩ =
      LIFStepSpec
        (⟨20, 123 / 200, 1, 3 / 10, Real.exp (-((1 : ℝ) / 20)), 0, 0, false⟩ :
          LightLIF 1 1 ℝ)
        (Real.exp (-((1 : ℝ) / 20))) (0 : Matrix (Fin 1) (Fin 1) ℝ) ⟨0, 0⟩ :=
  lif_call_matches_spec _ _ _ rfl

/-- Counterexample to C1 as stated: on a two-parameter input whose first
gradient pair mismatches, `check_gradients` surfaces the aggregate failure
(raises `ValueError`) having produced a report for only one of the two
parameters — the second parameter is never checked, so failure IS
short-circuited on the first mismatching parameter. -/
theorem check_gradients_short_circuits :
    check_gradients badGradInput =
      ([⟨"InputWeights", false, mismatchIndices [[1]] [[0]]⟩], true) ∧
    badGradInput.length = 2 ∧
    (check_gradients badGradInput).1.length = 1 := by
  have hfail : gradEntryCorrect (([[(1 : ℚ)]].getD 0 []).getD 0 0)
      (([[(0 : ℚ)]].getD 0 []).getD 0 0) = false := by
    norm_num [gradEntryCorrect]
  have hq : gradAllCorrect [[(1 : ℚ)]] [[(0 : ℚ)]] = false :=
    gradAllCorrect_false _ _ 0 0 (by decide) (by decide) hfail
  have hmain : check_gradients badGradInput =
      ([⟨"InputWeights", false, mismatchIndices [[1]] [[0]]⟩], true) :=
    check_gradients_stops_at_first_fail [] [("RecWeights", [[0]], [[0]])]
      ("InputWeights", [[1]], [[0]]) (by simp) hq
  exact ⟨hmain, rfl, by rw [hmain]; rfl⟩

/-- C1 (amended): a failing parameter still yields a distinguishable
per-parameter result (a failing report carrying its mismatch indices) and
the aggregate failure outcome is surfaced exactly when some parameter
fails; but the checker short-circuits: it raises `ValueError` right after
reporting the FIRST failing parameter, so the reports are the passing
reports of the longest all-correct prefix followed by the first failing
parameter's report, and later parameters are not checked. -/
theorem check_gradients_first_failure_only
    (ps : List (String × List (List ℚ) × List (List ℚ))) :
    (check_gradients ps).2 = (ps.any fun p => !gradAllCorrect p.2.1 p.2.2) ∧
    (check_gradients ps).1 =
      (ps.takeWhile fun p => gradAllCorrect p.2.1 p.2.2).map (fun p =>
        (⟨p.1, true, []⟩ : GradReport)) ++
      ((ps.find? fun p => !gradAllCorrect p.2.1 p.2.2).map fun p =>
        (⟨p.1, false, mismatchIndices p.2.1 p.2.2⟩ : GradReport)).toList :=
  ⟨by rw [check_gradients_eq], by rw [check_gradients_eq]⟩

/-- C9: a parameter list whose two gradient lists are elementwise identical
is reported all-passing with no failure outcome; a list identical except
for exactly one entry of one parameter, with absolute difference `2e-4`
there, reports that parameter as failing with that entry's `(i, j)` among
its mismatch indices. -/
theorem check_gradients_identity_and_single_mismatch
    (qs pre post : List (String × List (List ℚ) × List (List ℚ)))
    (nm : String) (t : List (List ℚ)) (i j : ℕ) (x : ℚ)
    (hq : ∀ p ∈ qs, p.2.1 = p.2.2)
    (hpre : ∀ p ∈ pre, p.2.1 = p.2.2)
    (hpost : ∀ p ∈ post, p.2.1 = p.2.2)
    (hi : i < t.length) (hj : j < (t.getD i []).length)
    (hx : |x - (t.getD i []).getD j 0| = 2 / 10000) :
    check_gradients qs = (qs.map fun p => (⟨p.1, true, []⟩ : GradReport), false) ∧
    check_gradients (pre ++ (nm, updateEntry t i j x, t) :: post) =
      ((pre.map fun p => (⟨p.1, true, []⟩ : GradReport)) ++
        [⟨nm, false, mismatchIndices (updateEntry t i j x) t⟩], true) ∧
    (i, j) ∈ mismatchIndices (updateEntry t i j x) t := by
  have len_e : (updateEntry t i j x).length = t.length := List.length_set t i _
  have row_e : (updateEntry t i j x).getD i [] = (t.getD i []).set j x := by
    rw [updateEntry, List.getD_eq_getElem _ _ (by simpa using hi)]
    exact List.getElem_set_self _
  have entry_e : ((updateEntry t i j x).getD i []).getD j 0 = x := by
    rw [row_e, List.getD_eq_getElem _ _ (by simpa using hj)]
    exact List.getElem_set_self _
  have hfail : gradEntryCorrect (((updateEntry t i j x).getD i []).getD j 0)
      ((t.getD i []).getD j 0) = false := by
    rw [entry_e, gradEntryCorrect, hx]
    norm_num
  have himin : i < min (updateEntry t i j x).length t.length := by
    rw [len_e, Nat.min_self]
    exact hi
  have hjmin : j < min ((updateEntry t i j x).getD i []).length (t.getD i []).length := by
    rw [row_e, List.length_set, Nat.min_self]
    exact hj
  have hallfalse : gradAllCorrect (updateEntry t i j x) t = false :=
    gradAllCorrect_false _ _ i j himin hjmin hfail
  exact ⟨check_gradients_identical qs hq,
    check_gradients_stops_at_first_fail pre post (nm, updateEntry t i j x, t) hpre hallfalse,
    mem_mismatchIndices _ _ i j himin hjmin hfail⟩

/-- Witness for C9: one identical parameter, then a parameter whose single
entry was moved by exactly `2e-4`. -/
theorem check_gradients_identity_and_single_mismatch_witness :
    check_gradients [("a", [[(1 : ℚ)]], [[(1 : ℚ)]])] =
      ([("a", [[(1 : ℚ)]], [[(1 : ℚ)]])].map fun p => (⟨p.1, true, []⟩ : GradReport),
        false) ∧
    check_gradients
        ([("a", [[(1 : ℚ)]], [[(1 : ℚ)]])] ++
          ("RecWeights", updateEntry [[(0 : ℚ)]] 0 0 (2 / 10000), [[(0 : ℚ)]]) :: []) =
      (([("a", [[(1 : ℚ)]], [[(1 : ℚ)]])].map fun p => (⟨p.1, true, []⟩ : GradReport)) ++
        [⟨"RecWeights", false,
          mismatchIndices (updateEntry [[(0 : ℚ)]] 0 0 (2 / 10000)) [[(0 : ℚ)]]⟩],
        true) ∧
    (0, 0) ∈ mismatchIndices (updateEntry [[(0 : ℚ)]] 0 0 (2 / 10000)) [[(0 : ℚ)]] :=
  check_gradients_identity_and_single_mismatch
    [("a", [[(1 : ℚ)]], [[(1 : ℚ)]])] [("a", [[(1 : ℚ)]], [[(1 : ℚ)]])] []
    "RecWeights" [[(0 : ℚ)]] 0 0 (2 / 10000)
    (by simp) (by simp) (by simp) (by decide) (by decide) (by norm_num)

end EligProp
